import Mathlib

/-!
Verification of the authentication and paginated-transport layer of the
`ably-rust` REST client (`src/auth.rs`, `src/http.rs`).

Rust strings are modelled as their UTF-8 byte sequences (`ByteStr`, a list
of byte values), since the source logic (MAC computation, the 128 KiB token
size guard, key parsing on the `:` byte) operates on bytes.  Timestamps
(`chrono::DateTime<Utc>`) are modelled at millisecond precision as integers.
Asynchronous I/O boundaries (the HTTP executor, the token-exchange endpoint,
user-supplied callbacks) are modelled as explicit function parameters; the
code under verification is everything the source does around those calls.
-/

namespace AblyRust

/-- A Rust byte string (`&[u8]` / the bytes of a `String`): a list of byte
values, each `< 256`. -/
abbrev ByteStr := List Nat

/-- UTF-8 encoding of a single character, as in Rust's `str::as_bytes`. -/
def encodeChar (c : Char) : ByteStr :=
  let n := c.toNat
  if n < 128 then [n]
  else if n < 2048 then [192 + n / 64, 128 + n % 64]
  else if n < 65536 then [224 + n / 4096, 128 + n / 64 % 64, 128 + n % 64]
  else [240 + n / 262144, 128 + n / 4096 % 64, 128 + n / 64 % 64, 128 + n % 64]

/-- The UTF-8 bytes of a string, as in Rust's `String::as_bytes` /
`String::len` (which counts bytes). -/
def strBytes (s : String) : ByteStr :=
  s.data.foldr (fun c acc => encodeChar c ++ acc) []

/-- Modelled from the spec: the error type `ErrorInfo` of `crate::error`
(`error.rs` is not under `src/`): a typed failure carrying a numeric code,
a human-readable message and an optional HTTP status (spec §7). -/
structure ErrorInfo where
  code : Nat
  message : String
  statusCode : Option Nat
  deriving Repr, DecidableEq

/-- The `error!(code, msg)` macro form: no HTTP status. -/
def errInfo (code : Nat) (message : String) : ErrorInfo :=
  ⟨code, message, none⟩

/-- The `error!(code, msg, status)` macro form: with an HTTP status. -/
def errInfoS (code : Nat) (message : String) (status : Nat) : ErrorInfo :=
  ⟨code, message, some status⟩

/-! ## SHA-256, HMAC-SHA256 and base64

Executable models of the `sha2`, `hmac` and `base64` crates used by
`Auth::compute_mac` (FIPS 180-4 / RFC 2104 / RFC 4648). -/

/-- Truncate to a 32-bit word. -/
def w32 (n : Nat) : Nat := n % 4294967296

/-- 32-bit right rotation. -/
def rotr32 (x n : Nat) : Nat := w32 ((x >>> n) ||| (x <<< (32 - n)))

/-- The SHA-256 round constants (FIPS 180-4 §4.2.2, written in decimal). -/
def sha256K : List Nat :=
  [1116352408, 1899447441, 3049323471, 3921009573, 961987163,
   1508970993, 2453635748, 2870763221, 3624381080, 310598401,
   607225278, 1426881987, 1925078388, 2162078206, 2614888103,
   3248222580, 3835390401, 4022224774, 264347078, 604807628,
   770255983, 1249150122, 1555081692, 1996064986, 2554220882,
   2821834349, 2952996808, 3210313671, 3336571891, 3584528711,
   113926993, 338241895, 666307205, 773529912, 1294757372,
   1396182291, 1695183700, 1986661051, 2177026350, 2456956037,
   2730485921, 2820302411, 3259730800, 3345764771, 3516065817,
   3600352804, 4094571909, 275423344, 430227734, 506948616,
   659060556, 883997877, 958139571, 1322822218, 1537002063,
   1747873779, 1955562222, 2024104815, 2227730452, 2361852424,
   2428436474, 2756734187, 3204031479, 3329325298]

/-- The SHA-256 initial hash state (FIPS 180-4 §5.3.3, in decimal). -/
def sha256H0 : List Nat :=
  [1779033703, 3144134277, 1013904242, 2773480762,
   1359893119, 2600822924, 528734635, 1541459225]

/-- Big-endian 8-byte encoding of a natural number. -/
def be64 (n : Nat) : ByteStr :=
  [(n >>> 56) % 256, (n >>> 48) % 256, (n >>> 40) % 256, (n >>> 32) % 256,
   (n >>> 24) % 256, (n >>> 16) % 256, (n >>> 8) % 256, n % 256]

/-- Big-endian 4-byte encoding of a 32-bit word. -/
def be32 (n : Nat) : ByteStr :=
  [(n >>> 24) % 256, (n >>> 16) % 256, (n >>> 8) % 256, n % 256]

/-- A big-endian 32-bit word from 4 bytes. -/
def beWord (b0 b1 b2 b3 : Nat) : Nat := ((b0 * 256 + b1) * 256 + b2) * 256 + b3

/-- SHA-256 padding: append `0x80`, zeros to 56 mod 64, then the bit length
as a big-endian 64-bit integer. -/
def sha256Pad (msg : ByteStr) : ByteStr :=
  let len := msg.length
  msg ++ [128] ++ List.replicate ((119 - len % 64) % 64) 0 ++ be64 (len * 8)

/-- Split a (padded) message into its 64-byte blocks. -/
def sha256Blocks (l : ByteStr) : List ByteStr :=
  (List.range (l.length / 64)).map (fun i => (l.drop (64 * i)).take 64)

/-- The 64-word message schedule of one SHA-256 block. -/
def sha256Schedule (blk : ByteStr) : List Nat :=
  let w16 := (List.range 16).map (fun i =>
    beWord (blk.getD (4 * i) 0) (blk.getD (4 * i + 1) 0)
      (blk.getD (4 * i + 2) 0) (blk.getD (4 * i + 3) 0))
  (List.range 48).foldl (fun w _ =>
    let n := w.length
    let x := w.getD (n - 15) 0
    let y := w.getD (n - 2) 0
    let s0 := (rotr32 x 7) ^^^ (rotr32 x 18) ^^^ (x >>> 3)
    let s1 := (rotr32 y 17) ^^^ (rotr32 y 19) ^^^ (y >>> 10)
    w ++ [w32 (w.getD (n - 16) 0 + s0 + w.getD (n - 7) 0 + s1)]) w16

/-- The SHA-256 compression function applied to one 64-byte block. -/
def sha256Compress (h : List Nat) (blk : ByteStr) : List Nat :=
  let w := sha256Schedule blk
  let st := (List.range 64).foldl (fun st i =>
    match st with
    | [a, b, c, d, e, f, g, hh] =>
      let s1 := (rotr32 e 6) ^^^ (rotr32 e 11) ^^^ (rotr32 e 25)
      let ch := (e &&& f) ^^^ ((4294967295 - e) &&& g)
      let t1 := w32 (hh + s1 + ch + sha256K.getD i 0 + w.getD i 0)
      let s0 := (rotr32 a 2) ^^^ (rotr32 a 13) ^^^ (rotr32 a 22)
      let maj := (a &&& b) ^^^ (a &&& c) ^^^ (b &&& c)
      let t2 := w32 (s0 + maj)
      [w32 (t1 + t2), a, b, c, w32 (d + t1), e, f, g]
    | other => other) h
  List.zipWith (fun x y => w32 (x + y)) h st

/-- SHA-256 of a byte string. -/
def sha256 (msg : ByteStr) : ByteStr :=
  ((sha256Blocks (sha256Pad msg)).foldl sha256Compress sha256H0).map be32 |>.flatten

/-- HMAC-SHA256 (RFC 2104): keys longer than the 64-byte block are hashed,
shorter keys zero-padded; inner/outer pads `0x36`/`0x5c`. -/
def hmacSha256 (key msg : ByteStr) : ByteStr :=
  let k0 := if key.length > 64 then sha256 key else key
  let k := k0 ++ List.replicate (64 - k0.length) 0
  let ipad := k.map (fun b => b ^^^ 54)
  let opad := k.map (fun b => b ^^^ 92)
  sha256 (opad ++ sha256 (ipad ++ msg))

/-- The standard base64 alphabet (RFC 4648). -/
def base64Alphabet : List Char :=
  "ABCDEFGHIJKLMNOPQRSTUVWXYZabcdefghijklmnopqrstuvwxyz0123456789+/".data

/-- The base64 digit for a 6-bit value. -/
def b64char (n : Nat) : Char := base64Alphabet.getD n 'A'

/-- Base64-encode a byte string with `=` padding, as `base64::encode`. -/
def base64Encode : ByteStr → String
  | [] => ""
  | [b0] =>
    String.mk [b64char (b0 >>> 2), b64char ((b0 &&& 3) <<< 4), '=', '=']
  | [b0, b1] =>
    String.mk [b64char (b0 >>> 2), b64char (((b0 &&& 3) <<< 4) ||| (b1 >>> 4)),
      b64char ((b1 &&& 15) <<< 2), '=']
  | b0 :: b1 :: b2 :: rest =>
    String.mk [b64char (b0 >>> 2), b64char (((b0 &&& 3) <<< 4) ||| (b1 >>> 4)),
      b64char (((b1 &&& 15) <<< 2) ||| (b2 >>> 6)), b64char (b2 &&& 63)]
      ++ base64Encode rest

/-! ## Auth data model (`src/auth.rs`) -/

/-- `MAX_TOKEN_LENGTH`: the maximum length of a valid token (`auth.rs:18`). -/
def MAX_TOKEN_LENGTH : Nat := 128 * 1024

/-- An API key (`auth.rs:22`): a name and a secret value. -/
structure Key where
  name : ByteStr
  value : ByteStr
  deriving Repr, DecidableEq

/-- Split a list at the first occurrence of `sep`: the semantics of Rust's
`s.splitn(2, sep)` when it yields two pieces (the remainder after the first
separator is returned verbatim). Returns `none` when `sep` does not occur
(in which case `splitn` yields a single piece). -/
def splitFirst {α : Type} [DecidableEq α] (sep : α) : List α → Option (List α × List α)
  | [] => none
  | b :: rest =>
    if b = sep then some ([], rest)
    else (splitFirst sep rest).map (fun p => (b :: p.1, p.2))

/-- The `error!(40000, "Invalid key")` value of `Key::try_from`. -/
def invalidKeyErr : ErrorInfo := errInfo 40000 "Invalid key"

/-- `Key::try_from(&str)` (`auth.rs:45-54`): `s.splitn(2, ':')` yields
exactly `[name, value]` iff the string contains a `:`; otherwise (including
the empty string, which yields the single piece `[""]`) the pattern match
fails and an `Invalid key` error is returned. -/
def Key.tryFrom (s : ByteStr) : Except ErrorInfo Key :=
  match splitFirst 58 s with
  | some (n, v) => .ok ⟨n, v⟩
  | none => .error invalidKeyErr

/-- `TokenParams` (`auth.rs:517-523`); the timestamp is modelled in
milliseconds since epoch. -/
structure TokenParams where
  capability : Option ByteStr
  clientId : Option ByteStr
  nonce : Option ByteStr
  timestamp : Option Int
  ttl : Option Int
  deriving Repr, DecidableEq

/-- `TokenParams::default()`: all fields `None`. -/
def TokenParams.empty : TokenParams := ⟨none, none, none, none, none⟩

/-- `TokenRequest` (`auth.rs:559-573`); `timestamp` is the
`DateTime<Utc>` at millisecond precision, in milliseconds since epoch. -/
structure TokenRequest where
  keyName : ByteStr
  timestamp : Int
  capability : Option ByteStr
  clientId : Option ByteStr
  mac : Option String
  nonce : ByteStr
  ttl : Option Int
  deriving Repr, DecidableEq

/-- `TokenDetails` (`auth.rs:581-593`); instants in milliseconds since
epoch. -/
structure TokenDetails where
  token : ByteStr
  expires : Option Int
  issued : Option Int
  capability : Option ByteStr
  clientId : Option ByteStr
  deriving Repr, DecidableEq

/-- `impl From<String> for TokenDetails` (`auth.rs:595-602`): the token
string plus `Default::default()` for every other field. -/
def TokenDetails.fromToken (token : ByteStr) : TokenDetails :=
  ⟨token, none, none, none, none⟩

/-- `Token` (`auth.rs:624-628`): the three shapes an `AuthCallback` may
return. -/
inductive Token where
  | request (r : TokenRequest)
  | details (d : TokenDetails)
  | literal (s : ByteStr)
  deriving Repr, DecidableEq

/-! ## MAC computation (`Auth::compute_mac`, `auth.rs:197-237`) -/

/-- A newline byte, `b"\n"`. -/
def newlineB : ByteStr := [10]

/-- The state of an incremental `Hmac<Sha256>` object: HMAC is a MAC over
the concatenation of all `update` calls, so the state is the key plus the
bytes accumulated so far. -/
structure HmacState where
  key : ByteStr
  msg : ByteStr

/-- `Hmac::<Sha256>::new_from_slice` (infallible for HMAC, which accepts
keys of any length — the `?` in the source can never fire). -/
def hmacNew (key : ByteStr) : HmacState := ⟨key, []⟩

/-- `mac.update(data)`: appends to the accumulated message. -/
def hmacUpdate (st : HmacState) (data : ByteStr) : HmacState :=
  ⟨st.key, st.msg ++ data⟩

/-- `mac.finalize().into_bytes()`. -/
def hmacFinalize (st : HmacState) : ByteStr := hmacSha256 st.key st.msg

/-- chrono's `timestamp()`: whole seconds since epoch, floored. -/
def timestampSecs (ms : Int) : Int := ms.fdiv 1000

/-- chrono's `timestamp_subsec_millis()`: the (non-negative) millisecond
part within the current second; at millisecond precision this is the total
milliseconds minus the floored seconds times 1000. -/
def timestampSubsecMillis (ms : Int) : Int := ms - timestampSecs ms * 1000

/-- `Auth::compute_mac` (`auth.rs:197-237`): the sequence of `mac.update`
calls on an `Hmac<Sha256>` keyed by the key's secret `value`, finalized and
base64-encoded.  `ttl` is `req.ttl.map(|t| t.to_string())` as bytes or
empty; `capability`/`client_id` are the field bytes or empty; the timestamp
is `timestamp() * 1000 + timestamp_subsec_millis()` as a decimal string. -/
def computeMac (key : Key) (req : TokenRequest) : String :=
  let mac := hmacNew key.value
  let mac := hmacUpdate mac key.name
  let mac := hmacUpdate mac newlineB
  let mac := hmacUpdate mac ((req.ttl.map (fun t => strBytes (toString t))).getD [])
  let mac := hmacUpdate mac newlineB
  let mac := hmacUpdate mac (req.capability.getD [])
  let mac := hmacUpdate mac newlineB
  let mac := hmacUpdate mac (req.clientId.getD [])
  let mac := hmacUpdate mac newlineB
  let timestampMs := timestampSecs req.timestamp * 1000 + timestampSubsecMillis req.timestamp
  let mac := hmacUpdate mac (strBytes (toString timestampMs))
  let mac := hmacUpdate mac newlineB
  let mac := hmacUpdate mac req.nonce
  let mac := hmacUpdate mac newlineB
  base64Encode (hmacFinalize mac)

/-- The canonical signing message exactly as the spec words it (§4.2):
`key_name`, newline, `ttl` as a decimal string (empty when absent),
newline, `capability` (empty when absent), newline, `client_id` (empty
when absent), newline, the timestamp in milliseconds since epoch as a
decimal integer, newline, `nonce`, newline. -/
def canonicalMessage (key : Key) (req : TokenRequest) : ByteStr :=
  key.name ++ newlineB
    ++ (req.ttl.map (fun t => strBytes (toString t))).getD [] ++ newlineB
    ++ req.capability.getD [] ++ newlineB
    ++ req.clientId.getD [] ++ newlineB
    ++ strBytes (toString req.timestamp) ++ newlineB
    ++ req.nonce ++ newlineB

/-! ## Credential resolution (`Auth::request_token`, `auth.rs:119-146`)

A custom `AuthCallback` trait object is opaque user code; its identity is
modelled by a type parameter `κ` and its behaviour, where needed, by an
explicit interpretation function. -/

/-- `AuthUrl` (`auth.rs:479-484`): URL, HTTP method, optional headers and
query params (URLs, methods, header/param pairs modelled as strings). -/
structure AuthUrl where
  url : String
  method : String
  headers : Option (List (String × String))
  params : Option (List (String × String))
  deriving Repr, DecidableEq

/-- The contents of the boxed `dyn AuthCallback` stored in a
`RequestTokenBuilder`: one of the built-in impls (`AuthUrlCallback`, `Key`,
`Token`) or a user-supplied callback of type `κ`. -/
inductive ResolvedCallback (κ : Type) where
  | custom (c : κ)
  | url (u : AuthUrl)
  | key (k : Key)
  | token (t : Token)
  deriving Repr

/-- `RequestTokenBuilder` (`auth.rs:295-299`): the resolved callback and
the accumulated `TokenParams` (the `rest` handle carries no further state
relevant here). -/
structure RequestTokenBuilder (κ : Type) where
  callback : Option (ResolvedCallback κ)
  params : TokenParams

/-- The configuration surface `rest.opts` consumed by `request_token`
(`ClientOptions`; spec §6). -/
structure ClientOptions (κ : Type) where
  authCallback : Option κ
  authUrl : Option String
  authMethod : String
  authHeaders : Option (List (String × String))
  authParams : Option (List (String × String))
  key : Option Key
  token : Option Token
  clientId : Option ByteStr
  defaultTokenParams : Option TokenParams

/-- `Auth::request_token` (`auth.rs:119-146`): build a
`RequestTokenBuilder`, installing as callback the first of
`opts.auth_callback` / `opts.auth_url` / `opts.key` / `opts.token` that is
present, then pre-populate `default_token_params` and `client_id`. -/
def requestToken {κ : Type} (opts : ClientOptions κ) : RequestTokenBuilder κ :=
  let b : RequestTokenBuilder κ := ⟨none, TokenParams.empty⟩
  let b :=
    match opts.authCallback with
    | some cb => { b with callback := some (.custom cb) }
    | none =>
      match opts.authUrl with
      | some u =>
        { b with callback := some (.url ⟨u, opts.authMethod, opts.authHeaders, opts.authParams⟩) }
      | none =>
        match opts.key with
        | some k => { b with callback := some (.key k) }
        | none =>
          match opts.token with
          | some t => { b with callback := some (.token t) }
          | none => b
  let b :=
    match opts.defaultTokenParams with
    | some p => { b with params := p }
    | none => b
  match opts.clientId with
  | some cid => { b with params := { b.params with clientId := some cid } }
  | none => b

/-- The token-source resolution as the spec words it: strict priority
order — an explicitly supplied custom callback first, else the auth-URL
callback, else the local API key, else a bare literal token; exactly the
first applicable source is used, with no merging of sources. -/
def specResolve {κ : Type} (opts : ClientOptions κ) : Option (ResolvedCallback κ) :=
  if let some cb := opts.authCallback then some (.custom cb)
  else if let some u := opts.authUrl then
    some (.url ⟨u, opts.authMethod, opts.authHeaders, opts.authParams⟩)
  else if let some k := opts.key then some (.key k)
  else if let some t := opts.token then some (.token t)
  else none

/-! ## `RequestTokenBuilder::send` (`auth.rs:365-404`)

The callback invocation and the token-exchange HTTP round trip are the
asynchronous boundaries: they are passed in as `run` (the result of
`callback.token(rest, params)`) and `exchange` (the
`POST /keys/{keyName}/requestToken` round trip of `auth.rs:414-428`). -/

/-- The `error!(40171, ...)` of `auth.rs:369`. -/
def noMeansErr : ErrorInfo := errInfo 40171 "no means provided to renew auth token"

/-- The oversize-token `error!(40170, format!(...), 401)` of
`auth.rs:392-401`. -/
def oversizeTokenErr (len : Nat) : ErrorInfo :=
  errInfoS 40170
    ("Token string exceeded max permitted length (was " ++ toString len ++ " bytes)") 401

/-- The inner match of `send` (`auth.rs:376-380`): a `Token::Request` is
exchanged for a `TokenDetails`, a literal is wrapped via
`TokenDetails::from`, a `Token::Details` is returned as is. -/
def detailsOf (t : Token) (exchange : TokenRequest → Except ErrorInfo TokenDetails) :
    Except ErrorInfo TokenDetails :=
  match t with
  | .request req => exchange req
  | .literal tok => .ok (TokenDetails.fromToken tok)
  | .details d => .ok d

/-- `RequestTokenBuilder::send` (`auth.rs:365-404`): fail with the
"no means to renew" error when no callback is resolved; invoke the
callback; normalise a `40000` callback error to `40170`/status 401
(RSA4e); propagate the exchange error via `?`; reject tokens longer than
`MAX_TOKEN_LENGTH` (RSA4f); otherwise return the details. -/
def RequestTokenBuilder.send {κ : Type} (b : RequestTokenBuilder κ)
    (run : ResolvedCallback κ → Except ErrorInfo Token)
    (exchange : TokenRequest → Except ErrorInfo TokenDetails) :
    Except ErrorInfo TokenDetails :=
  match b.callback with
  | none => .error noMeansErr
  | some cb =>
    match run cb with
    | .error err =>
      .error (if err.code = 40000 then { err with code := 40170, statusCode := some 401 } else err)
    | .ok t =>
      match detailsOf t exchange with
      | .error e => .error e
      | .ok details =>
        if details.token.length > MAX_TOKEN_LENGTH then
          .error (oversizeTokenErr details.token.length)
        else
          .ok details

/-! ## Auth-URL callback (`AuthUrlCallback::request`, `auth.rs:443-467`) -/

/-- A JSON value, as far as the token payloads need: strings, integral
numbers (timestamps in milliseconds), null, and objects. -/
inductive Json where
  | str (s : String)
  | num (n : Int)
  | null
  | obj (fields : List (String × Json))

/-- Look up a field of a JSON object. -/
def jsonLookup (fields : List (String × Json)) (k : String) : Option Json :=
  (fields.find? (fun p => p.1 == k)).map (·.2)

/-- A JSON string as Rust `String` bytes. -/
def jsonAsStr : Json → Option ByteStr
  | .str s => some (strBytes s)
  | _ => none

/-- A JSON string kept as text (for the base64 `mac` field). -/
def jsonAsText : Json → Option String
  | .str s => some s
  | _ => none

/-- A JSON integral number. -/
def jsonAsInt : Json → Option Int
  | .num n => some n
  | _ => none

/-- Decode an optional struct field: missing or `null` is `none`; present
with the wrong shape fails the whole variant. -/
def jsonOptField {α : Type} (fields : List (String × Json)) (k : String)
    (f : Json → Option α) : Option (Option α) :=
  match jsonLookup fields k with
  | none => some none
  | some .null => some none
  | some v => (f v).map some

/-- Modelled from the spec: serde's derived deserialization of
`TokenRequest` (the generated code is not under `src/`): a JSON object,
camelCase field names, non-`Option` fields required, `Option` fields
absent-or-null allowed, the timestamp as milliseconds (`ts_milliseconds`),
unknown fields ignored. -/
def decodeTokenRequestJson (j : Json) : Option TokenRequest :=
  match j with
  | .obj fs => do
    let keyName ← jsonLookup fs "keyName" >>= jsonAsStr
    let timestamp ← jsonLookup fs "timestamp" >>= jsonAsInt
    let nonce ← jsonLookup fs "nonce" >>= jsonAsStr
    let capability ← jsonOptField fs "capability" jsonAsStr
    let clientId ← jsonOptField fs "clientId" jsonAsStr
    let mac ← jsonOptField fs "mac" jsonAsText
    let ttl ← jsonOptField fs "ttl" jsonAsInt
    some ⟨keyName, timestamp, capability, clientId, mac, nonce, ttl⟩
  | _ => none

/-- Modelled from the spec: serde's derived deserialization of
`TokenDetails` (the generated code is not under `src/`): a JSON object
with a required `token` string, optional millisecond instants and optional
strings, unknown fields ignored. -/
def decodeTokenDetailsJson (j : Json) : Option TokenDetails :=
  match j with
  | .obj fs => do
    let token ← jsonLookup fs "token" >>= jsonAsStr
    let expires ← jsonOptField fs "expires" jsonAsInt
    let issued ← jsonOptField fs "issued" jsonAsInt
    let capability ← jsonOptField fs "capability" jsonAsStr
    let clientId ← jsonOptField fs "clientId" jsonAsStr
    some ⟨token, expires, issued, capability, clientId⟩
  | _ => none

/-- Modelled from the spec: serde's untagged deserialization of `Token`
(spec §9 design notes — the derive-generated code is not under `src/`):
ordered structural attempts — the `TokenRequest` shape first, else the
`TokenDetails` shape, else a plain string accepted as a literal token. -/
def decodeToken (j : Json) : Option Token :=
  ((decodeTokenRequestJson j).map .request).orElse fun _ =>
    ((decodeTokenDetailsJson j).map .details).orElse fun _ =>
      (jsonAsText j).map (fun s => .literal (strBytes s))

/-- Modelled from the spec: the error produced when the auth-URL JSON body
fails to parse or matches no `Token` variant; the source converts the
serde error through `crate::error` (not under `src/`), which assigns it a
code and message not fixed by the spec. No claim depends on this value. -/
def tokenDecodeErr : ErrorInfo := errInfo 40000 "failed to decode token response"

/-- The missing content-type `error!(40170, ...)` of `auth.rs:449`. -/
def missingContentTypeErr : ErrorInfo :=
  errInfo 40170 "authUrl response is missing a content-type header"

/-- The unacceptable content-type `error!(40170, format!(...))` of
`auth.rs:465`. -/
def unacceptableContentTypeErr (ct : String) : ErrorInfo :=
  errInfo 40170
    ("authUrl responded with unacceptable content-type " ++ ct
      ++ ", should be either text/plain, application/jwt or application/json")

/-- A successful HTTP response as this layer observes it: the HTTP status,
the parsed essence of the `Content-Type` header (`mime` parsing, an
external crate, is modelled as already done — `none` when the header is
missing or unparsable), the values of the `Link` headers, the raw body
bytes, and the decoded structured error body if the body carries one
(`WrappedError` decoding is serde-generated code outside `src/`). -/
structure HttpResponse where
  status : Nat
  contentType : Option String
  linkHeaders : List String
  body : ByteStr
  errorBody : Option ErrorInfo
  deriving Repr, DecidableEq

/-- `AuthUrlCallback::request` (`auth.rs:443-467`), applied to the
response of the already-sent unauthenticated request: dispatch strictly on
the `Content-Type` essence — `application/json` is decoded as a `Token`
(`parse` is the external serde_json text parser), `text/plain` and
`application/jwt` yield the body text as a literal token, anything else is
an unacceptable-content-type error; a missing `Content-Type` is itself an
error. -/
def authUrlHandle (parse : ByteStr → Option Json) (res : HttpResponse) :
    Except ErrorInfo Token :=
  match res.contentType with
  | none => .error missingContentTypeErr
  | some ct =>
    if ct = "application/json" then
      match parse res.body with
      | some j =>
        match decodeToken j with
        | some t => .ok t
        | none => .error tokenDecodeErr
      | none => .error tokenDecodeErr
    else if ct = "text/plain" ∨ ct = "application/jwt" then
      .ok (.literal res.body)
    else
      .error (unacceptableContentTypeErr ct)

/-! ## Link headers and the paginated engine (`src/http.rs`) -/

/-- A parsed `Link` header (`http.rs:353-356`). -/
structure Link where
  rel : String
  params : String
  deriving Repr, DecidableEq

/-- The `error!(40004, "Invalid Link header")` of `http.rs:370-392`. (The
source has three message variants; with the `rel`/`params` capture groups
mandatory in the pattern, only this one is reachable from a parse
failure.) -/
def invalidLinkErr : ErrorInfo := errInfo 40004 "Invalid Link header"

/-- The regex crate's `\s` class (ASCII part; the headers modelled here
are ASCII). -/
def isSpaceRe (c : Char) : Bool :=
  c = ' ' || c.toNat = 9 || c.toNat = 10 || c.toNat = 13 || c.toNat = 11 || c.toNat = 12

/-- The regex crate's `\w` class (ASCII part; the headers modelled here
are ASCII). -/
def isWordRe (c : Char) : Bool := c.isAlphanum || c = '_'

/-- `Link::try_from(&HeaderValue)` (`http.rs:366-393`): match the anchored
pattern `^\s*<[^?]+\?(?P<params>.+)>;\s*rel="(?P<rel>\w+)"$`. The match,
when it exists, is unique: `[^?]+` stops at the first `?`, and the
`$`-anchored tail `>;\s*rel="\w+"$` is read off deterministically from the
end (so `params` runs to the last `>;...` suffix, may contain `>` or `;`,
must be non-empty, and — since `.` excludes newlines — must contain no
newline). Header values are modelled as strings (the `to_str` UTF-8 check
of the source is upstream of this model). -/
def linkTryFrom (v : String) : Except ErrorInfo Link :=
  match (v.data.dropWhile isSpaceRe) with
  | '<' :: rest =>
    match splitFirst '?' rest with
    | none => .error invalidLinkErr
    | some (pre, post) =>
      if pre.isEmpty then .error invalidLinkErr
      else
        match post.reverse with
        | '"' :: r1 =>
          let relRev := r1.takeWhile isWordRe
          let r2 := r1.drop relRev.length
          if relRev.isEmpty then .error invalidLinkErr
          else
            match r2 with
            | '"' :: '=' :: 'l' :: 'e' :: 'r' :: r3 =>
              match r3.dropWhile isSpaceRe with
              | ';' :: '>' :: paramsRev =>
                if paramsRev.isEmpty || paramsRev.any (fun c => c.toNat = 10) then
                  .error invalidLinkErr
                else .ok ⟨String.mk relRev.reverse, String.mk paramsRev.reverse⟩
              | _ => .error invalidLinkErr
            | _ => .error invalidLinkErr
        | _ => .error invalidLinkErr
  | _ => .error invalidLinkErr

/-- A built `Request` (`http.rs:307-310`) as the paginated engine observes
it: the URL's query string, the headers (carried so that cloning visibly
preserves them), and whether `reqwest::Request::try_clone` succeeds
(`false` models a streamed, non-cloneable body). -/
structure Request where
  query : Option String
  headers : List (String × String)
  cloneable : Bool
  deriving Repr, DecidableEq

/-- `Request::try_clone` (`http.rs:345-350`): `None` when the body is not
cloneable. -/
def Request.tryClone (r : Request) : Option Request :=
  if r.cloneable then some r else none

/-- `req.url_mut().set_query(Some(params))`: replace the query string. -/
def Request.setQuery (r : Request) (q : String) : Request :=
  { r with query := some q }

/-- `Request::send` (`http.rs:321-343`), with the transport modelled as a
function `exec` from requests to raw responses: a 2xx status yields the
response; otherwise the decoded structured error body is returned, falling
back to a generic `error!(50000, format!("Unexpected error: {}", err),
Some(status))` (whose message embeds the decoder's error text, which no
claim inspects). -/
def Request.sendVia (exec : Request → HttpResponse) (r : Request) :
    Except ErrorInfo HttpResponse :=
  let res := exec r
  if 200 ≤ res.status ∧ res.status ≤ 299 then .ok res
  else
    .error (match res.errorBody with
      | some e => e
      | none => errInfoS 50000 "Unexpected error" res.status)

/-- A page (`PaginatedResult`, `http.rs:482-486`) wrapping a successful
response. The optional per-item handler only post-processes the decoded
items of `items()` and plays no role in the stream structure, so it is not
carried here. -/
structure PaginatedResult where
  res : HttpResponse
  deriving Repr, DecidableEq

/-- `PaginatedResult::next_link` (`http.rs:509-518`): the first
successfully parsed `Link` header with `rel == "next"`; malformed headers
are skipped by the `flatten`. -/
def PaginatedResult.nextLink (p : PaginatedResult) : Option Link :=
  (p.res.linkHeaders.filterMap (fun v =>
    match linkTryFrom v with
    | .ok l => some l
    | .error _ => none)).find? (fun l => l.rel == "next")

/-- The `error!(40000, "not a pageable request")` of `http.rs:262`. -/
def notPageableErr : ErrorInfo := errInfo 40000 "not a pageable request"

/-- The internal `PaginatedState` of `stream::unfold` (`http.rs:177-181`):
the request for the next page, if any (`Err` when building or cloning it
failed). -/
structure PagState where
  nextReq : Option (Except ErrorInfo Request)

/-- One iteration of the `stream::unfold` closure of
`PaginatedRequestBuilder::pages` (`http.rs:236-291`): `none` ends the
stream; a failed pending request is yielded and the stream ends next
iteration; otherwise the request is cloned *before* being sent (a
non-cloneable body becomes a "not a pageable request" error held for the
next iteration), the request is sent (a send failure is yielded and ends
the stream), and on success the response's `rel="next"` link, if any, has
its params merged into the cloned request's query to form the next pending
request. -/
def pagesStep (exec : Request → HttpResponse) (s : PagState) :
    Option (Except ErrorInfo PaginatedResult × PagState) :=
  match s.nextReq with
  | none => none
  | some (.error err) => some (.error err, ⟨none⟩)
  | some (.ok req) =>
    let nextCloned : Except ErrorInfo Request :=
      match req.tryClone with
      | some r => .ok r
      | none => .error notPageableErr
    match req.sendVia exec with
    | .error err => some (.error err, ⟨none⟩)
    | .ok raw =>
      let res : PaginatedResult := ⟨raw⟩
      let s2 : PagState :=
        match res.nextLink with
        | some link =>
          ⟨some (match nextCloned with
                 | .ok r => .ok (r.setQuery link.params)
                 | .error e => .error e)⟩
        | none => ⟨none⟩
      some (.ok res, s2)

/-- The first `n` elements the pages stream yields from state `s`: the
observable output of the lazy `stream::unfold`. -/
def pagesOut (exec : Request → HttpResponse) : Nat → PagState →
    List (Except ErrorInfo PaginatedResult)
  | 0, _ => []
  | n + 1, s =>
    match pagesStep exec s with
    | none => []
    | some (x, s2) => x :: pagesOut exec n s2

/-- No successful page ever follows an error element: an error, if present,
is the last element. -/
def errTerminal : List (Except ErrorInfo PaginatedResult) → Prop
  | [] => True
  | .error _ :: rest => rest = []
  | .ok _ :: rest => errTerminal rest

/-! ## Theorems -/

/-- C1: `compute_mac(key, req)` is a deterministic pure function (it is a
Lean function of exactly `key` and `req`, so for fixed key, timestamp,
nonce and params the result is reproducible) and returns the base64
encoding of the HMAC-SHA256, keyed by the key's secret `value`, of exactly
the byte sequence `key_name`, newline, ttl as a decimal string (empty when
absent), newline, capability (empty when absent), newline, client_id
(empty when absent), newline, the timestamp in milliseconds since epoch as
a decimal integer, newline, nonce, newline, in this fixed order. -/
theorem claim_C1_compute_mac_canonical (key : Key) (req : TokenRequest) :
    computeMac key req = base64Encode (hmacSha256 key.value (canonicalMessage key req)) := by
  have h : timestampSecs req.timestamp * 1000 + timestampSubsecMillis req.timestamp
      = req.timestamp := by
    simp [timestampSubsecMillis]
  simp [computeMac, canonicalMessage, hmacNew, hmacUpdate, hmacFinalize, h,
    List.append_assoc]

/-- `request_token` installs exactly the callback that the spec-side
priority resolution picks. -/
theorem requestToken_callback_eq {κ : Type} (opts : ClientOptions κ) :
    (requestToken opts).callback = specResolve opts := by
  obtain ⟨acb, aurl, am, ah, ap, k, tok, cid, dtp⟩ := opts
  cases acb <;> cases aurl <;> cases k <;> cases tok <;> cases cid <;> cases dtp <;>
    simp [requestToken, specResolve, TokenParams.empty]

/-- C2: for every configuration, `request_token` resolves the token source
in strict priority order — custom callback, else auth URL, else local API
key, else literal token — and exactly the first applicable source is
installed; in particular, with both an `auth_url` and a `key` configured
but no explicit callback or token, the URL callback is used and the key is
not. -/
theorem claim_C2_request_token_priority :
    (∀ (κ : Type) (opts : ClientOptions κ),
      (requestToken opts).callback = specResolve opts) ∧
    (∀ (κ : Type) (opts : ClientOptions κ) (u : String) (k : Key),
      opts.authCallback = none → opts.token = none → opts.authUrl = some u →
      opts.key = some k →
      (requestToken opts).callback =
        some (.url ⟨u, opts.authMethod, opts.authHeaders, opts.authParams⟩)) := by
  constructor
  · intro κ opts
    exact requestToken_callback_eq opts
  · intro κ opts u k h1 h2 h3 h4
    rw [requestToken_callback_eq]
    simp [specResolve, h1, h3]

/-- A configuration with both an auth URL and a key, but no custom callback
and no literal token. -/
def optsUrlAndKey : ClientOptions Unit :=
  ⟨none, some "https://example.com/token", "GET", none, none,
    some ⟨strBytes "app", strBytes "secret"⟩, none, none, none⟩

/-- Witness for C2: on a concrete configuration with both an auth URL and a
key, the resolved callback is the URL callback. -/
theorem claim_C2_witness :
    (requestToken optsUrlAndKey).callback =
      some (.url ⟨"https://example.com/token", "GET", none, none⟩) :=
  claim_C2_request_token_priority.2 Unit optsUrlAndKey "https://example.com/token"
    ⟨strBytes "app", strBytes "secret"⟩ rfl rfl rfl rfl

/-- An exhausted state yields nothing. -/
theorem pagesOut_noneState (exec : Request → HttpResponse) (n : Nat) :
    pagesOut exec n ⟨none⟩ = [] := by
  cases n <;> simp [pagesOut, pagesStep]

/-- Unfold one yielded element of the pages stream. -/
theorem pagesOut_cons (exec : Request → HttpResponse) (n : Nat) (s : PagState)
    (x : Except ErrorInfo PaginatedResult) (s2 : PagState)
    (h : pagesStep exec s = some (x, s2)) :
    pagesOut exec (n + 1) s = x :: pagesOut exec n s2 := by
  simp [pagesOut, h]

/-- The stream never yields a success after an error, from any state. -/
theorem errTerminal_pagesOut (exec : Request → HttpResponse) :
    ∀ (n : Nat) (s : PagState), errTerminal (pagesOut exec n s) := by
  intro n
  induction n with
  | zero => intro s; simp [pagesOut, errTerminal]
  | succ n ih =>
    intro s
    obtain ⟨nr⟩ := s
    match nr with
    | none => simp [pagesOut, pagesStep, errTerminal]
    | some (.error e) =>
      simp [pagesOut, pagesStep, errTerminal, pagesOut_noneState]
    | some (.ok req) =>
      rcases hsend : Request.sendVia exec req with e | raw
      · simp [pagesOut, pagesStep, hsend, errTerminal, pagesOut_noneState]
      · simp [pagesOut, pagesStep, hsend, errTerminal]
        exact ih _

/-- The concrete first-page `Link` header of the pagination scenario. -/
def linkHdrEx : String := "<./x?limit=10&cont=true>; rel=\"next\""

/-- First response: 200 with a `rel="next"` link. -/
def pageRes1 : HttpResponse := ⟨200, none, [linkHdrEx], [], none⟩

/-- Second response: 200 with no `Link` header. -/
def pageRes2 : HttpResponse := ⟨200, none, [], [], none⟩

/-- The built first request of the pagination scenarios. -/
def reqEx : Request := ⟨none, [], true⟩

/-- A transport answering the first request with `pageRes1` and the
continuation request (whose query was replaced by the link params) with
`pageRes2`. -/
def execTwoPages : Request → HttpResponse := fun r =>
  if r.query = some "limit=10&cont=true" then pageRes2 else pageRes1

/-- The structured error body of the 500 scenario. -/
def err500Ex : ErrorInfo := errInfoS 10000 "server error" 500

/-- A transport answering every request with HTTP 500. -/
def exec500 : Request → HttpResponse := fun _ => ⟨500, none, [], [], some err500Ex⟩

/-- C3: the pages stream yields zero or more successful pages followed by
at most one error element and then ends (no success ever follows an
error, from any state and for every prefix length); concretely, a first
response carrying a `rel="next"` link followed by a response with no
`Link` header yields exactly two successful pages then termination, and a
first response with HTTP status 500 yields exactly one error element and
no pages. -/
theorem claim_C3_pages_stream :
    (∀ (exec : Request → HttpResponse) (n : Nat) (s : PagState),
      errTerminal (pagesOut exec n s)) ∧
    pagesOut execTwoPages 3 ⟨some (.ok reqEx)⟩ = [.ok ⟨pageRes1⟩, .ok ⟨pageRes2⟩] ∧
    pagesOut exec500 3 ⟨some (.ok reqEx)⟩ = [.error err500Ex] := by
  refine ⟨errTerminal_pagesOut, rfl, rfl⟩

/-- A non-cloneable (streamed-body) request. -/
def reqNoClone : Request := ⟨none, [], false⟩

/-- A transport answering every request with a 200 response that carries
no `Link` header. -/
def execPlain200 : Request → HttpResponse := fun _ => pageRes2

/-- Counterexample to C9 as stated: with a non-cloneable pending request
whose (successful) response carries no `rel="next"` link, the stream
yields the page and terminates without ever surfacing a "not pageable"
error element. -/
theorem claim_C9_counterexample :
    pagesOut execPlain200 5 ⟨some (.ok reqNoClone)⟩ = [.ok ⟨pageRes2⟩] ∧
    Except.error notPageableErr ∉ pagesOut execPlain200 5 ⟨some (.ok reqNoClone)⟩ := by
  have h1 : pagesOut execPlain200 5 ⟨some (.ok reqNoClone)⟩ = [.ok ⟨pageRes2⟩] := rfl
  refine ⟨h1, ?_⟩
  rw [h1]
  simp

/-- C9 (amended): each pending request is cloned before it is sent, so the
next page's request is the original request (headers preserved) with only
its query replaced by the `rel="next"` link params; when the pending
request's body is non-cloneable, the stream still yields the current page
and then surfaces a "not pageable" error element if (and only to the
extent that) the response carries a `rel="next"` link — with no next link
the stream ends after the page without an error. It never crashes: the
failed clone is a yielded error value. -/
theorem claim_C9_clone_before_send :
    (∀ (exec : Request → HttpResponse) (req : Request) (raw : HttpResponse) (l : Link),
      req.cloneable = true → Request.sendVia exec req = .ok raw →
      PaginatedResult.nextLink ⟨raw⟩ = some l →
      pagesStep exec ⟨some (.ok req)⟩ =
        some (.ok ⟨raw⟩, ⟨some (.ok { req with query := some l.params })⟩)) ∧
    (∀ (exec : Request → HttpResponse) (req : Request) (raw : HttpResponse) (l : Link),
      req.cloneable = false → Request.sendVia exec req = .ok raw →
      PaginatedResult.nextLink ⟨raw⟩ = some l →
      pagesOut exec 3 ⟨some (.ok req)⟩ = [.ok ⟨raw⟩, .error notPageableErr]) ∧
    (∀ (exec : Request → HttpResponse) (req : Request) (raw : HttpResponse),
      req.cloneable = false → Request.sendVia exec req = .ok raw →
      PaginatedResult.nextLink ⟨raw⟩ = none →
      pagesOut exec 3 ⟨some (.ok req)⟩ = [.ok ⟨raw⟩]) := by
  refine ⟨?_, ?_, ?_⟩
  · intro exec req raw l hc hs hl
    simp [pagesStep, hs, hl, Request.tryClone, hc, Request.setQuery]
  · intro exec req raw l hc hs hl
    have h1 : pagesStep exec ⟨some (.ok req)⟩ =
        some (.ok ⟨raw⟩, ⟨some (.error notPageableErr)⟩) := by
      simp [pagesStep, hs, hl, Request.tryClone, hc]
    have h2 : pagesStep exec ⟨some (.error notPageableErr)⟩ =
        some (.error notPageableErr, ⟨none⟩) := by
      simp [pagesStep]
    calc pagesOut exec 3 ⟨some (.ok req)⟩
        = .ok ⟨raw⟩ :: pagesOut exec 2 ⟨some (.error notPageableErr)⟩ :=
          pagesOut_cons exec 2 _ _ _ h1
      _ = [.ok ⟨raw⟩, .error notPageableErr] := by
          rw [pagesOut_cons exec 1 _ _ _ h2, pagesOut_noneState]
  · intro exec req raw hc hs hl
    have h1 : pagesStep exec ⟨some (.ok req)⟩ = some (.ok ⟨raw⟩, ⟨none⟩) := by
      simp [pagesStep, hs, hl, Request.tryClone, hc]
    rw [pagesOut_cons exec 2 _ _ _ h1, pagesOut_noneState]

/-- A non-cloneable request together with a response that does carry a
`rel="next"` link. -/
def execWithLink : Request → HttpResponse := fun _ => pageRes1

/-- A cloneable request with custom headers, for the clone-preservation
part. -/
def reqWithHeaders : Request := ⟨some "a=1", [("X-Ably-Version", "1.2")], true⟩

/-- Witness for C9 (amended), at concrete inputs: a cloneable request's
next pending request preserves its headers and replaces only the query;
and a non-cloneable request followed by a `rel="next"` response yields the
page then the "not pageable" error. -/
theorem claim_C9_witness :
    pagesStep execWithLink ⟨some (.ok reqWithHeaders)⟩ =
      some (.ok ⟨pageRes1⟩,
        ⟨some (.ok ⟨some "limit=10&cont=true", [("X-Ably-Version", "1.2")], true⟩)⟩) ∧
    pagesOut execWithLink 3 ⟨some (.ok reqNoClone)⟩ =
      [.ok ⟨pageRes1⟩, .error notPageableErr] := by
  constructor
  · exact claim_C9_clone_before_send.1 execWithLink reqWithHeaders pageRes1
      ⟨"next", "limit=10&cont=true"⟩ rfl rfl rfl
  · exact claim_C9_clone_before_send.2.1 execWithLink reqNoClone pageRes1
      ⟨"next", "limit=10&cont=true"⟩ rfl rfl rfl

/-- C4: for every callback result in `send`, a `TokenDetails` whose token
is `128*1024 + 1` bytes or longer is rejected with the dedicated
oversize-token error (code 40170) carrying HTTP status 401, regardless of
which callback variant produced it, while a token of exactly `128*1024`
bytes is accepted and returned. -/
theorem claim_C4_token_size_guard {κ : Type} (b : RequestTokenBuilder κ)
    (run : ResolvedCallback κ → Except ErrorInfo Token)
    (exchange : TokenRequest → Except ErrorInfo TokenDetails)
    (cb : ResolvedCallback κ) (t : Token) (d : TokenDetails)
    (hcb : b.callback = some cb) (hrun : run cb = .ok t)
    (hdet : detailsOf t exchange = .ok d) :
    (d.token.length ≥ MAX_TOKEN_LENGTH + 1 →
      b.send run exchange = .error (oversizeTokenErr d.token.length) ∧
      (oversizeTokenErr d.token.length).statusCode = some 401 ∧
      (oversizeTokenErr d.token.length).code = 40170) ∧
    (d.token.length = MAX_TOKEN_LENGTH → b.send run exchange = .ok d) := by
  constructor
  · intro hlen
    have hgt : d.token.length > MAX_TOKEN_LENGTH := by omega
    refine ⟨?_, rfl, rfl⟩
    simp [RequestTokenBuilder.send, hcb, hrun, hdet, hgt]
  · intro hlen
    have hle : ¬ d.token.length > MAX_TOKEN_LENGTH := by omega
    simp [RequestTokenBuilder.send, hcb, hrun, hdet, hle]

/-- A token of exactly `128*1024` bytes. -/
def tokenAtLimit : ByteStr := List.replicate MAX_TOKEN_LENGTH 97

/-- A token of `128*1024 + 1` bytes. -/
def tokenOverLimit : ByteStr := List.replicate (MAX_TOKEN_LENGTH + 1) 97

/-- A builder holding a literal-token callback for `tok`. -/
def literalBuilder (tok : ByteStr) : RequestTokenBuilder Unit :=
  ⟨some (.token (.literal tok)), TokenParams.empty⟩

/-- The interpretation of a `Token` used as its own callback
(`auth.rs:648-653`): it returns itself unchanged. -/
def runTokenCallback : ResolvedCallback Unit → Except ErrorInfo Token
  | .token t => .ok t
  | _ => .error (errInfo 40000 "unused")

/-- An exchange oracle that is never consulted by these scenarios. -/
def exchangeUnused : TokenRequest → Except ErrorInfo TokenDetails :=
  fun _ => .error (errInfo 40000 "unused")

/-- Witness for C4 at concrete inputs: a literal token of `128*1024 + 1`
bytes is rejected with the oversize error, and one of exactly `128*1024`
bytes is accepted. -/
theorem claim_C4_witness :
    (literalBuilder tokenOverLimit).send runTokenCallback exchangeUnused =
      .error (oversizeTokenErr (MAX_TOKEN_LENGTH + 1)) ∧
    (literalBuilder tokenAtLimit).send runTokenCallback exchangeUnused =
      .ok (TokenDetails.fromToken tokenAtLimit) := by
  constructor
  · have h := (claim_C4_token_size_guard (literalBuilder tokenOverLimit)
      runTokenCallback exchangeUnused (.token (.literal tokenOverLimit))
      (.literal tokenOverLimit) (TokenDetails.fromToken tokenOverLimit)
      rfl rfl rfl).1
    have hlen : (TokenDetails.fromToken tokenOverLimit).token.length
        = MAX_TOKEN_LENGTH + 1 := by
      simp [TokenDetails.fromToken, tokenOverLimit]
    rw [hlen] at h
    exact (h (le_refl _)).1
  · have h := (claim_C4_token_size_guard (literalBuilder tokenAtLimit)
      runTokenCallback exchangeUnused (.token (.literal tokenAtLimit))
      (.literal tokenAtLimit) (TokenDetails.fromToken tokenAtLimit)
      rfl rfl rfl).2
    exact h (by simp [TokenDetails.fromToken, tokenAtLimit])

/-- C5: a callback error with code 40000 is surfaced by `send` as code
40170 with HTTP status 401 (message preserved); a callback error with any
other code is propagated unchanged. -/
theorem claim_C5_error_normalization {κ : Type} (b : RequestTokenBuilder κ)
    (run : ResolvedCallback κ → Except ErrorInfo Token)
    (exchange : TokenRequest → Except ErrorInfo TokenDetails)
    (cb : ResolvedCallback κ) (err : ErrorInfo)
    (hcb : b.callback = some cb) (hrun : run cb = .error err) :
    (err.code = 40000 →
      b.send run exchange = .error { err with code := 40170, statusCode := some 401 }) ∧
    (err.code ≠ 40000 → b.send run exchange = .error err) := by
  constructor
  · intro h40000
    simp [RequestTokenBuilder.send, hcb, hrun, h40000]
  · intro hother
    simp [RequestTokenBuilder.send, hcb, hrun, hother]

/-- A builder whose callback fails with the given error (custom-callback
variant, to show normalization is independent of the variant). -/
def failingBuilder : RequestTokenBuilder Unit :=
  ⟨some (.custom ()), TokenParams.empty⟩

/-- Witness for C5 at concrete inputs: a callback failing with 40000 is
remapped to 40170 / status 401, and one failing with 40140 passes through
unchanged. -/
theorem claim_C5_witness :
    failingBuilder.send (fun _ => .error (errInfo 40000 "bad input")) exchangeUnused =
      .error ⟨40170, "bad input", some 401⟩ ∧
    failingBuilder.send (fun _ => .error (errInfo 40140 "expired")) exchangeUnused =
      .error ⟨40140, "expired", none⟩ := by
  constructor
  · exact (claim_C5_error_normalization failingBuilder _ exchangeUnused
      (.custom ()) (errInfo 40000 "bad input") rfl rfl).1 rfl
  · exact (claim_C5_error_normalization failingBuilder _ exchangeUnused
      (.custom ()) (errInfo 40140 "expired") rfl rfl).2 (by decide)

/-- C7: when no token source at all was resolvable (no custom callback, no
auth URL, no key, no literal token), `send` fails immediately with the
dedicated "no means to renew" error (code 40171) and never proceeds: no
callback is invoked and no exchange happens. -/
theorem claim_C7_no_means_to_renew {κ : Type} (b : RequestTokenBuilder κ)
    (run : ResolvedCallback κ → Except ErrorInfo Token)
    (exchange : TokenRequest → Except ErrorInfo TokenDetails)
    (hcb : b.callback = none) :
    b.send run exchange = .error noMeansErr ∧ noMeansErr.code = 40171 := by
  refine ⟨?_, rfl⟩
  simp [RequestTokenBuilder.send, hcb]

/-- Witness for C7: a builder produced from a fully empty configuration
(nothing resolvable) fails with the "no means to renew" error. -/
theorem claim_C7_witness :
    (requestToken (⟨none, none, "GET", none, none, none, none, none, none⟩ :
        ClientOptions Unit)).send runTokenCallback exchangeUnused =
      .error noMeansErr :=
  (claim_C7_no_means_to_renew _ runTokenCallback exchangeUnused rfl).1

/-- Counterexample to C10 as stated: a callback returning a
`Token::Literal` of `128*1024 + 1` bytes does not produce a `TokenDetails`
with that token — `send` rejects it with the oversize-token error. -/
theorem claim_C10_counterexample :
    (literalBuilder tokenOverLimit).send runTokenCallback exchangeUnused =
      .error (oversizeTokenErr (MAX_TOKEN_LENGTH + 1)) := by
  have hlen : (TokenDetails.fromToken tokenOverLimit).token.length
      = MAX_TOKEN_LENGTH + 1 := by
    simp [TokenDetails.fromToken, tokenOverLimit]
  have hgt : (TokenDetails.fromToken tokenOverLimit).token.length > MAX_TOKEN_LENGTH := by
    omega
  have h : (literalBuilder tokenOverLimit).send runTokenCallback exchangeUnused =
      .error (oversizeTokenErr (TokenDetails.fromToken tokenOverLimit).token.length) := by
    simp [RequestTokenBuilder.send, literalBuilder, runTokenCallback, detailsOf, hgt]
  rw [hlen] at h
  exact h

/-- C10 (amended): for every callback that returns `Token::Literal(s)`
with `s` at most `128*1024` bytes long, `send` returns a `TokenDetails`
whose token equals `s` and whose `expires`, `issued`, `capability` and
`client_id` are all `None` — no metadata is synthesized; literals longer
than `128*1024` bytes are instead rejected by the oversize-token guard. -/
theorem claim_C10_literal_wrapped {κ : Type} (b : RequestTokenBuilder κ)
    (run : ResolvedCallback κ → Except ErrorInfo Token)
    (exchange : TokenRequest → Except ErrorInfo TokenDetails)
    (cb : ResolvedCallback κ) (s : ByteStr)
    (hcb : b.callback = some cb) (hrun : run cb = .ok (.literal s))
    (hlen : s.length ≤ MAX_TOKEN_LENGTH) :
    b.send run exchange = .ok ⟨s, none, none, none, none⟩ := by
  have hle : ¬ (TokenDetails.fromToken s).token.length > MAX_TOKEN_LENGTH := by
    simpa [TokenDetails.fromToken] using hlen
  simp only [RequestTokenBuilder.send, hcb, hrun, detailsOf, TokenDetails.fromToken]
  rw [if_neg (by omega)]

/-- Witness for C10 (amended): a concrete literal token is wrapped into a
`TokenDetails` with every metadata field `None`. -/
theorem claim_C10_witness :
    (literalBuilder (strBytes "abc123")).send runTokenCallback exchangeUnused =
      .ok ⟨strBytes "abc123", none, none, none, none⟩ :=
  claim_C10_literal_wrapped (literalBuilder (strBytes "abc123")) runTokenCallback
    exchangeUnused (.token (.literal (strBytes "abc123"))) (strBytes "abc123")
    rfl rfl (by decide)

/-- The JSON value of the body `{"token":"abc123"}`. -/
def tokenObjJson : Json := .obj [("token", .str "abc123")]

/-- C6: the auth-URL callback dispatches strictly on the response
`Content-Type`: `application/json` is decoded structurally as a `Token`
(the body `{"token":"abc123"}` yields `Token::Details` with that token and
no other metadata), `text/plain` or `application/jwt` yields
`Token::Literal` of the body text, any other content type is an error
naming the offending type, and a missing `Content-Type` header is itself
an error. -/
theorem claim_C6_auth_url_dispatch (parse : ByteStr → Option Json) (res : HttpResponse) :
    (res.contentType = none →
      authUrlHandle parse res = .error missingContentTypeErr) ∧
    (res.contentType = some "text/plain" →
      authUrlHandle parse res = .ok (.literal res.body)) ∧
    (res.contentType = some "application/jwt" →
      authUrlHandle parse res = .ok (.literal res.body)) ∧
    (res.contentType = some "application/json" →
      parse res.body = some tokenObjJson →
      authUrlHandle parse res =
        .ok (.details ⟨strBytes "abc123", none, none, none, none⟩)) ∧
    (∀ ct : String, res.contentType = some ct → ct ≠ "application/json" →
      ct ≠ "text/plain" → ct ≠ "application/jwt" →
      authUrlHandle parse res = .error (unacceptableContentTypeErr ct)) := by
  refine ⟨?_, ?_, ?_, ?_, ?_⟩
  · intro h
    simp [authUrlHandle, h]
  · intro h
    simp [authUrlHandle, h]
  · intro h
    simp [authUrlHandle, h]
  · intro h hp
    simp only [authUrlHandle, h, hp]
    rfl
  · intro ct h h1 h2 h3
    simp [authUrlHandle, h, h1, h2, h3]

/-- An `application/json` auth-URL response with body `{"token":"abc123"}`. -/
def resJsonEx : HttpResponse :=
  ⟨200, some "application/json", [], strBytes "\x7b\"token\":\"abc123\"\x7d", none⟩

/-- The serde_json parse of that concrete body. -/
def parseJsonEx : ByteStr → Option Json := fun _ => some tokenObjJson

/-- A `text/plain` auth-URL response with body `abc123`. -/
def resPlainEx : HttpResponse := ⟨200, some "text/plain", [], strBytes "abc123", none⟩

/-- A `text/html` auth-URL response. -/
def resHtmlEx : HttpResponse := ⟨200, some "text/html", [], strBytes "<p>x</p>", none⟩

/-- A response with no `Content-Type` header. -/
def resNoCtEx : HttpResponse := ⟨200, none, [], [], none⟩

/-- Witness for C6 at concrete inputs: JSON body `{"token":"abc123"}`
yields `Token::Details` with that token; `text/plain` body `abc123` yields
`Token::Literal("abc123")`; `text/html` is rejected naming the type;
missing `Content-Type` is an error. -/
theorem claim_C6_witness :
    authUrlHandle parseJsonEx resJsonEx =
      .ok (.details ⟨strBytes "abc123", none, none, none, none⟩) ∧
    authUrlHandle parseJsonEx resPlainEx = .ok (.literal (strBytes "abc123")) ∧
    authUrlHandle parseJsonEx resHtmlEx =
      .error (unacceptableContentTypeErr "text/html") ∧
    authUrlHandle parseJsonEx resNoCtEx = .error missingContentTypeErr := by
  refine ⟨?_, ?_, ?_, ?_⟩
  · exact (claim_C6_auth_url_dispatch parseJsonEx resJsonEx).2.2.2.1 rfl rfl
  · exact (claim_C6_auth_url_dispatch parseJsonEx resPlainEx).2.1 rfl
  · exact (claim_C6_auth_url_dispatch parseJsonEx resHtmlEx).2.2.2.2 "text/html"
      rfl (by decide) (by decide) (by decide)
  · exact (claim_C6_auth_url_dispatch parseJsonEx resNoCtEx).1 rfl

/-- `splitFirst` splits at the first separator: everything after it is
returned verbatim. -/
theorem splitFirst_append {α : Type} [DecidableEq α] (sep : α) :
    ∀ (n v : List α), sep ∉ n → splitFirst sep (n ++ sep :: v) = some (n, v) := by
  intro n
  induction n with
  | nil => intro v _; simp [splitFirst]
  | cons a n ih =>
    intro v hmem
    have ha : ¬ a = sep := by
      intro h
      exact hmem (by simp [h])
    have hn : sep ∉ n := fun h => hmem (List.mem_cons_of_mem a h)
    simp [splitFirst, ha, ih v hn]

/-- `splitFirst` finds nothing exactly when the separator is absent. -/
theorem splitFirst_eq_none {α : Type} [DecidableEq α] (sep : α) :
    ∀ (s : List α), sep ∉ s → splitFirst sep s = none := by
  intro s
  induction s with
  | nil => intro _; simp [splitFirst]
  | cons a s ih =>
    intro hmem
    have ha : ¬ a = sep := by
      intro h
      exact hmem (by simp [h])
    have hs : sep ∉ s := fun h => hmem (List.mem_cons_of_mem a h)
    simp [splitFirst, ha, ih hs]

/-- Inversion: a successful `splitFirst` reconstructs the input, with no
separator in the first component. -/
theorem splitFirst_ok {α : Type} [DecidableEq α] (sep : α) :
    ∀ (s a b : List α), splitFirst sep s = some (a, b) →
      sep ∉ a ∧ s = a ++ sep :: b := by
  intro s
  induction s with
  | nil => intro a b h; simp [splitFirst] at h
  | cons c s ih =>
    intro a b h
    by_cases hc : c = sep
    · simp [splitFirst, hc] at h
      obtain ⟨ha, hb⟩ := h
      subst ha hb
      simp [hc]
    · simp only [splitFirst, if_neg hc] at h
      rcases hsplit : splitFirst sep s with _ | ⟨p1, p2⟩
      · rw [hsplit] at h
        exact Option.noConfusion h
      · rw [hsplit] at h
        simp only [Option.map_some', Option.some.injEq, Prod.mk.injEq] at h
        obtain ⟨h1, h2⟩ := h
        subst h2
        subst h1
        obtain ⟨hmem, hrec⟩ := ih p1 p2 hsplit
        constructor
        · intro hin
          rcases List.mem_cons.mp hin with h1 | h2
          · exact hc h1.symm
          · exact hmem h2
        · rw [hrec]
          simp

/-- Counterexample to C8 as stated: the string `":x"` contains a `:`, so it
parses successfully — but the resulting `Key` has an empty `name`,
contradicting the claimed non-emptiness invariant. (Likewise `"a:"` parses
with an empty `value`.) -/
theorem claim_C8_counterexample :
    Key.tryFrom (strBytes ":x") = .ok ⟨[], strBytes "x"⟩ ∧
    Key.tryFrom (strBytes "a:") = .ok ⟨strBytes "a", []⟩ := by
  constructor <;> rfl

/-- C8 (amended): key parsing splits on the first `:` occurrence — the
remainder of the string becomes the value verbatim, so the value may
itself contain `:` — and strings containing no `:` (including the empty
string) are parse errors; for every string that parses successfully, the
name is the (possibly empty) colon-free prefix and the value the
(possibly empty) remainder, so that name, `:`, value reassemble the input
— but either part may be empty (`":x"` gives an empty name, `"a:"` an
empty value). -/
theorem claim_C8_key_parsing :
    (∀ n v : ByteStr, 58 ∉ n → Key.tryFrom (n ++ 58 :: v) = .ok ⟨n, v⟩) ∧
    (∀ s : ByteStr, 58 ∉ s → Key.tryFrom s = .error invalidKeyErr) ∧
    (∀ (s : ByteStr) (k : Key), Key.tryFrom s = .ok k →
      58 ∉ k.name ∧ s = k.name ++ 58 :: k.value) := by
  refine ⟨?_, ?_, ?_⟩
  · intro n v hmem
    simp [Key.tryFrom, splitFirst_append 58 n v hmem]
  · intro s hmem
    simp [Key.tryFrom, splitFirst_eq_none 58 s hmem]
  · intro s k h
    rcases hsplit : splitFirst 58 s with _ | p
    · simp [Key.tryFrom, hsplit] at h
    · simp [Key.tryFrom, hsplit] at h
      obtain ⟨hmem, hrec⟩ := splitFirst_ok 58 s p.1 p.2 hsplit
      subst h
      exact ⟨hmem, hrec⟩

/-- Witness for C8 (amended) at concrete inputs: `"name:secret"` parses
into that name and secret; `"nocolon"` and `""` are parse errors; the
value keeps later colons verbatim. -/
theorem claim_C8_witness :
    Key.tryFrom (strBytes "name" ++ 58 :: strBytes "sec:ret") =
      .ok ⟨strBytes "name", strBytes "sec:ret"⟩ ∧
    Key.tryFrom (strBytes "nocolon") = .error invalidKeyErr ∧
    Key.tryFrom (strBytes "") = .error invalidKeyErr := by
  refine ⟨?_, ?_, ?_⟩
  · exact claim_C8_key_parsing.1 (strBytes "name") (strBytes "sec:ret") (by decide)
  · exact claim_C8_key_parsing.2.1 (strBytes "nocolon") (by decide)
  · exact claim_C8_key_parsing.2.1 (strBytes "") (by decide)

end AblyRust
